import Mathlib

/-!
Verification development for the archive-analyzer repository.

The definitions below are a shallow embedding of the Python sources:
  - src/archive_analyzer/utils/path.py        (path normalization, file ids)
  - src/archive_analyzer/catalog_extractor.py (year extraction)
  - src/archive_analyzer/path_tracker.py      (identity store, event queue,
                                               event applier, reconciler)
  - scripts/migrate_path_tracker.py           (schema migration)

Machine-level conventions of the embedding:
  - Python strings are Lean `String`, manipulated through their `.data`
    character lists so that every definition reduces in the kernel.
  - `hashlib.md5(...).hexdigest()` is an abstract parameter
    `md5hex : String → String`: no property of the digest function is
    assumed anywhere; definitions that need it take it as an argument.
  - `datetime.now().isoformat()` is an abstract `now : String` parameter.
  - The SQLite store is a record of row lists.  `fetchone` is `List.find?`,
    `UPDATE ... WHERE id = ?` is a `List.map` guarded on the id, and an
    `INSERT` that would violate the schema's PRIMARY KEY (`files.id`) or
    UNIQUE (`files.nas_path`) constraint raises in Python before anything
    is committed; such an aborted handler leaves the store unchanged and
    is modelled by returning the store unchanged.
-/

namespace ArchiveAnalyzer

/-- Head test used by normalize_nas_path: Python's
`normalized.startswith("//")` on the slash-normalized string. -/
def startsWithDoubleSlash : List Char → Bool
  | '/' :: '/' :: _ => true
  | _ => false

/-- Embedding of `normalize_nas_path` (utils/path.py).  Backslashes become
slashes, the string is lowercased (Python `str.lower`, here on ASCII), and
when `removeLeading` is true (the source's remove_prefix flag) a leading
`//` is dropped. -/
def normalize_nas_path (path : String) (removeLeading : Bool) : String :=
  if path = "" then ""
  else
    let normalized :=
      String.mk ((path.data.map (fun c => if c = '\\' then '/' else c)).map Char.toLower)
    if removeLeading && startsWithDoubleSlash normalized.data then
      String.mk (normalized.data.drop 2)
    else normalized

/-- Embedding of `generate_file_id` (utils/path.py): the md5 hexdigest of
`normalize_nas_path(nas_path, remove_prefix=False)` truncated to 16
characters.  The digest function is the abstract parameter `md5hex`. -/
def generate_file_id (md5hex : String → String) (nas_path : String) : String :=
  String.mk ((md5hex (normalize_nas_path nas_path false)).data.take 16)

/-- The id derivation as the specification words it (claim C7): the
lowercased slash-normalized path **with its leading `//` stripped** is fed
to the hash and the digest truncated to 16 characters.  This definition
follows the spec text and is compared against `generate_file_id`, which
follows the source. -/
def generate_file_id_claim (md5hex : String → String) (nas_path : String) : String :=
  String.mk ((md5hex (normalize_nas_path nas_path true)).data.take 16)

/-- Embedding of `os.path.basename` as used by the tracker on Windows NAS
paths: the final component after the last `/` or `\`. -/
def basename (p : String) : String :=
  String.mk (p.data.foldl (fun acc c => if c = '/' || c = '\\' then [] else acc ++ [c]) [])

/-! ### Year extraction (catalog_extractor.py)

`DynamicCatalogExtractor.YEAR_PATTERN` is the Python regex

  `(?:^|[/_\s-])((?:19|20)\d{2})(?:[/_\s-]|$)`

and `_extract_year` runs `findall` over it, filters the captured values to
1970..2030 and returns the maximum (`None` when nothing survives).  The
scanner below is a direct executable encoding of CPython `re.findall` on
this specific pattern: attempts proceed left to right, at position 0 the
`^` alternative is tried before the delimiter class, a successful match
consumes its trailing delimiter, and scanning resumes at the match end.
The `\s` class is taken at its ASCII fragment (the archive paths the
extractor sees are ASCII). -/

/-- Character class `[/_\s-]` of YEAR_PATTERN (ASCII fragment of `\s`). -/
def isYearDelim (c : Char) : Bool :=
  c = '/' || c = '_' || c = '-' ||
    c = ' ' || c = '\t' || c = '\n' || c = '\r' || c = Char.ofNat 11 || c = Char.ofNat 12

/-- Numeric value of a digit character. -/
def digitVal (c : Char) : Nat := c.toNat - 48

/-- Match `((?:19|20)\d{2})(?:[/_\s-]|$)` at the head of the list.  On
success, returns the captured year and the rest of the input after the
whole match (the trailing delimiter, when present, is consumed). -/
def yearCore : List Char → Option (Nat × List Char)
  | c1 :: c2 :: c3 :: c4 :: rest =>
    if ((c1 = '1' && c2 = '9') || (c1 = '2' && c2 = '0')) && c3.isDigit && c4.isDigit then
      let y := digitVal c1 * 1000 + digitVal c2 * 100 + digitVal c3 * 10 + digitVal c4
      match rest with
      | [] => some (y, [])
      | d :: tl => if isYearDelim d then some (y, tl) else none
    else none
  | _ => none

/-- Scan for matches whose leading delimiter is a character of `[/_\s-]`
(every attempt position except a match of the `^` alternative).  The fuel
argument only bounds recursion depth; `fuel ≥ length of the list` makes it
inexhaustible because every recursive call strictly shrinks the list. -/
def scanYearsAux : Nat → List Char → List Nat
  | 0, _ => []
  | _, [] => []
  | fuel + 1, c :: tl =>
    if isYearDelim c then
      match yearCore tl with
      | some (y, rest) => y :: scanYearsAux fuel rest
      | none => scanYearsAux fuel tl
    else scanYearsAux fuel tl

/-- Embedding of `re.findall(YEAR_PATTERN, text)` (captured groups, in
scan order): the position-0 attempt may use the `^` alternative, every
other attempt consumes a delimiter character first. -/
def findallYears (s : String) : List Nat :=
  match yearCore s.data with
  | some (y, rest) => y :: scanYearsAux rest.length rest
  | none => scanYearsAux s.data.length s.data

/-- Embedding of `DynamicCatalogExtractor._extract_year`: findall, filter
to 1970..2030, maximum; `None` when nothing matched or survived. -/
def extract_year (text : String) : Option Nat :=
  let found := findallYears text
  if found.isEmpty then none
  else
    let years := found.filter (fun y => 1970 ≤ y && y ≤ 2030)
    years.max?

/-- Delimiter set as claim C9 words it: `/`, `_`, or a space (plus the
string boundaries, handled by the position logic). -/
def claimDelim (c : Char) : Bool :=
  c = '/' || c = '_' || c = ' '

/-- Followed-by test of claim C9: end of string or a claim delimiter. -/
def claimFollowOk : List Char → Bool
  | [] => true
  | d :: _ => claimDelim d

/-- Read a four-digit number at the head of the list, requiring the
following character (if any) to be a claim delimiter. -/
def fourDigitYearAt : List Char → Option Nat
  | c1 :: c2 :: c3 :: c4 :: rest =>
    if c1.isDigit && c2.isDigit && c3.isDigit && c4.isDigit && claimFollowOk rest then
      some (digitVal c1 * 1000 + digitVal c2 * 100 + digitVal c3 * 10 + digitVal c4)
    else none
  | _ => none

/-- All four-digit numbers preceded by a claim delimiter or the string
start and followed by a claim delimiter or the string end, read from the
claim's wording (occurrences may overlap, nothing is consumed). -/
def claimYearsAux : Bool → List Char → List Nat
  | _, [] => []
  | precededOk, c :: tl =>
    let here :=
      if precededOk then
        match fourDigitYearAt (c :: tl) with
        | some y => [y]
        | none => []
      else []
    here ++ claimYearsAux (claimDelim c) tl

/-- The year extraction as claim C9 states it: the largest four-digit
number in 1970..2030 that is preceded and followed by `/`, `_`, a space,
or a string boundary; null when none exists.  Compared against
`extract_year`, which follows the source. -/
def claimYear (s : String) : Option Nat :=
  ((claimYearsAux true s.data).filter (fun y => 1970 ≤ y && y ≤ 2030)).max?

/-! ### Catalog store and event applier (path_tracker.py)

The `files` table rows carry the columns the tracker reads and writes
(schema of tests/test_path_tracker.py plus the migration's columns).  The
spec's extracted-metadata fields are represented by `year`; the tracker's
INSERT statement names no metadata column, so the field keeps its NULL
default on every insert. -/

/-- One row of the `files` table. -/
structure FileRow where
  id : String
  nas_path : String
  filename : String
  size_bytes : Nat
  content_hash : String
  status : String
  deleted_at : Option String
  created_at : String
  updated_at : String
  last_verified_at : Option String
  year : Option Nat
  deriving Repr, DecidableEq

/-- One row of the append-only `file_history` table. -/
structure HistoryRow where
  file_id : String
  event_type : String
  old_path : Option String
  new_path : Option String
  old_hash : Option String
  new_hash : Option String
  deriving Repr, DecidableEq

/-- The SQLite store.  `hasHistoryTable` records whether the
`file_history` table exists: `_log_history` catches the
`sqlite3.OperationalError` raised when it is missing and drops the
record. -/
structure DB where
  files : List FileRow
  file_history : List HistoryRow
  hasHistoryTable : Bool
  deriving Repr, DecidableEq

/-- Embedding of the `FileIdentity` dataclass (the float `mtime` field is
never consulted by a handler and is omitted). -/
structure FileIdentity where
  size : Nat
  filename : String
  content_hash : String
  deriving Repr, DecidableEq

/-- The filesystem as the tracker sees it: `compute` is
`FileIdentityStore.compute` (None on any I/O failure) and `pathExists` is
`os.path.exists`. -/
structure Filesystem where
  compute : String → Option FileIdentity
  pathExists : String → Bool

/-- Ambient parameters of one handler invocation: the abstract md5
hexdigest, the filesystem oracle, and `datetime.now().isoformat()`. -/
structure TrackerCtx where
  md5hex : String → String
  fs : Filesystem
  now : String

/-- Embedding of `FileIdentityStore.find_by_hash_and_size`: first row
matching hash, size and `status = 'active'`, as `(id, nas_path)`. -/
def find_by_hash_and_size (files : List FileRow) (content_hash : String) (size : Nat) :
    Option (String × String) :=
  (files.find? fun r =>
      r.content_hash == content_hash && r.size_bytes == size && r.status == "active").map
    fun r => (r.id, r.nas_path)

/-- Embedding of `NASPathTracker._log_history`: append one history row,
unless the `file_history` table is missing, in which case the
`OperationalError` is swallowed and nothing is recorded. -/
def log_history (db : DB) (file_id event_type : String)
    (old_path new_path old_hash new_hash : Option String) : DB :=
  if db.hasHistoryTable then
    { db with file_history :=
        db.file_history ++ [⟨file_id, event_type, old_path, new_path, old_hash, new_hash⟩] }
  else db

/-- Row effect of the UPDATE shared by `_update_path` and
`_handle_moved`: rewrite `nas_path`, `filename`, `updated_at`. -/
def rewritePath (now new_path : String) (r : FileRow) : FileRow :=
  { r with nas_path := new_path, filename := basename new_path, updated_at := now }

/-- Row effect of the soft-delete UPDATE shared by `_handle_deleted` and
`reconcile`: set `status`, `deleted_at`, `updated_at`. -/
def softDelete (now : String) (r : FileRow) : FileRow :=
  { r with status := "deleted", deleted_at := some now, updated_at := now }

/-- Embedding of `NASPathTracker._update_path`: rewrite `nas_path`,
`filename` and `updated_at` of the row with the given id.  Setting
`nas_path` to a value another row already holds violates the UNIQUE
constraint: the UPDATE raises and nothing is committed (`none`). -/
def update_path (ctx : TrackerCtx) (db : DB) (file_id new_path : String) : Option DB :=
  if db.files.any fun r => r.nas_path == new_path && r.id != file_id then none
  else some { db with files := db.files.map fun r =>
    if r.id == file_id then rewritePath ctx.now new_path r else r }

/-- Embedding of `NASPathTracker._create_file`: insert an active row whose
id derives from the path, then log a `created` history record.  An INSERT
violating the PRIMARY KEY (duplicate id) or UNIQUE (duplicate `nas_path`)
constraint raises before the commit, leaving the store unchanged. -/
def create_file (ctx : TrackerCtx) (db : DB) (path : String) (identity : FileIdentity) : DB :=
  let file_id := generate_file_id ctx.md5hex path
  if db.files.any fun r => r.id == file_id || r.nas_path == path then db
  else
    let row : FileRow :=
      { id := file_id, nas_path := path, filename := identity.filename
        size_bytes := identity.size, content_hash := identity.content_hash
        status := "active", deleted_at := none
        created_at := ctx.now, updated_at := ctx.now
        last_verified_at := none, year := none }
    log_history { db with files := db.files ++ [row] } file_id "created" none (some path)
      none none

/-- Embedding of `NASPathTracker._handle_created`: compute the identity
(drop the event when unreadable); an active row with the same hash and
size means a move (rewrite its path, log `moved`), otherwise insert a new
file. -/
def handle_created (ctx : TrackerCtx) (db : DB) (path : String) : DB :=
  match ctx.fs.compute path with
  | none => db
  | some identity =>
    match find_by_hash_and_size db.files identity.content_hash identity.size with
    | some (file_id, old_path) =>
      match update_path ctx db file_id path with
      | none => db
      | some db1 => log_history db1 file_id "moved" (some old_path) (some path) none none
    | none => create_file ctx db path identity

/-- Embedding of `NASPathTracker._handle_deleted`: soft-delete the active
row at the path (set `status`, `deleted_at`, `updated_at`), then log a
`deleted` history record; drop the event when no active row matches. -/
def handle_deleted (ctx : TrackerCtx) (db : DB) (path : String) : DB :=
  match db.files.find? (fun r => r.nas_path == path && r.status == "active") with
  | none => db
  | some row =>
    let db1 := { db with files := db.files.map fun r =>
      if r.id == row.id then softDelete ctx.now r else r }
    log_history db1 row.id "deleted" (some path) none none none

/-- Embedding of `NASPathTracker._handle_moved`: rewrite the path of the
row at `src` (any status) and log `moved`; without a stored source row the
event degrades to `created` at the destination.  The UPDATE obeys the
UNIQUE constraint on `nas_path` exactly as in `update_path`. -/
def handle_moved (ctx : TrackerCtx) (db : DB) (src : String) (dst : Option String) : DB :=
  match dst with
  | none => db
  | some dst_path =>
    match db.files.find? (fun r => r.nas_path == src) with
    | none => handle_created ctx db dst_path
    | some row =>
      if db.files.any fun r => r.nas_path == dst_path && r.id != row.id then db
      else
        let db1 := { db with files := db.files.map fun r =>
          if r.id == row.id then rewritePath ctx.now dst_path r else r }
        log_history db1 row.id "moved" (some src) (some dst_path) none none

/-- Embedding of `NASPathTracker._handle_modified`: recompute the
identity; when the stored hash differs, overwrite `content_hash` and
`size_bytes` and log `modified` with both hashes; otherwise drop. -/
def handle_modified (ctx : TrackerCtx) (db : DB) (path : String) : DB :=
  match ctx.fs.compute path with
  | none => db
  | some identity =>
    match db.files.find? (fun r => r.nas_path == path) with
    | none => db
    | some row =>
      if row.content_hash != identity.content_hash then
        let db1 := { db with files := db.files.map fun r =>
          if r.id == row.id then
            { r with content_hash := identity.content_hash, size_bytes := identity.size
                     updated_at := ctx.now }
          else r }
        log_history db1 row.id "modified" (some path) (some path)
          (some row.content_hash) (some identity.content_hash)
      else db

/-- Event record drained from the debounce queue (the `TrackerEvent`
dataclass; timestamps are modelled as naturals). -/
structure TrackerEvent where
  event_type : String
  src_path : String
  dst_path : Option String
  timestamp : Nat
  deriving Repr, DecidableEq

/-- Dispatch of `NASPathTracker.process_events` on one drained event. -/
def apply_event (ctx : TrackerCtx) (db : DB) (e : TrackerEvent) : DB :=
  if e.event_type = "created" then handle_created ctx db e.src_path
  else if e.event_type = "deleted" then handle_deleted ctx db e.src_path
  else if e.event_type = "moved" then handle_moved ctx db e.src_path e.dst_path
  else if e.event_type = "modified" then handle_modified ctx db e.src_path
  else db

/-- Embedding of `NASPathTracker.reconcile`: snapshot the active rows,
and for each whose path no longer exists overwrite its row to
`status = 'deleted'` directly in the `files` table.  No event is
synthesized, no history is appended, `last_verified_at` is not touched. -/
def reconcile (ctx : TrackerCtx) (db : DB) : DB :=
  (db.files.filter fun r => r.status == "active").foldl
    (fun acc a =>
      if ctx.fs.pathExists a.nas_path then acc
      else { acc with files := acc.files.map fun r =>
        if r.id == a.id then softDelete ctx.now r else r })
    db

/-- Invariant of claim C4: no two active rows of the catalog share the
`(size_bytes, content_hash)` identity pair. -/
def identity_unique (db : DB) : Prop :=
  db.files.Pairwise fun r1 r2 =>
    r1.status = "active" → r2.status = "active" →
      ¬(r1.size_bytes = r2.size_bytes ∧ r1.content_hash = r2.content_hash)

instance (db : DB) : Decidable (identity_unique db) :=
  List.instDecidablePairwise _

/-! ### Debouncing event queue (path_tracker.py, EventQueue)

The pending map `self._pending : Dict[str, TrackerEvent]` keyed by source
path is an association list in insertion order (Python dicts preserve it);
`EventQueue.put` merges as in the source and `_flush` drains the values in
order.  Only the merge logic matters to the claims; the timer and the
output channel carry events unchanged. -/

/-- Lookup of `self._pending[key]`. -/
def pendingLookup (pending : List (String × TrackerEvent)) (key : String) :
    Option TrackerEvent :=
  (pending.find? fun kv => kv.1 == key).map (·.2)

/-- Assignment `self._pending[key] = event` for a key already present. -/
def pendingSet (pending : List (String × TrackerEvent)) (key : String) (e : TrackerEvent) :
    List (String × TrackerEvent) :=
  pending.map fun kv => if kv.1 == key then (kv.1, e) else kv

/-- Embedding of `EventQueue.put`: merge the incoming event into the
pending map.  A pending `deleted` absorbs everything; an incoming
`deleted` replaces any other kind; otherwise the strictly newer timestamp
wins. -/
def put (pending : List (String × TrackerEvent)) (e : TrackerEvent) :
    List (String × TrackerEvent) :=
  match pendingLookup pending e.src_path with
  | some old =>
    if old.event_type = "deleted" then pending
    else if e.event_type = "deleted" then pendingSet pending e.src_path e
    else if old.timestamp < e.timestamp then pendingSet pending e.src_path e
    else pending
  | none => pending ++ [(e.src_path, e)]

/-- Embedding of `EventQueue._flush`: drain the pending values onto the
output queue and clear the map. -/
def flush (pending : List (String × TrackerEvent)) : List TrackerEvent :=
  pending.map (·.2)

/-! ### Schema migration (scripts/migrate_path_tracker.py)

The schema state carries what the migration inspects: whether `files`
exists and its column set, whether `file_history` exists, the index set,
and whether the `_migrations` table exists.  (The version row written by
`record_migration` with INSERT OR REPLACE is data, not schema, and is not
tracked.) -/

/-- Schema state of one database. -/
structure Schema where
  filesTableExists : Bool
  filesColumns : List String
  historyTableExists : Bool
  indexes : List String
  migrationsTableExists : Bool
  deriving Repr, DecidableEq

/-- Counters of `migrate_database`'s result dict. -/
structure MigrationResult where
  columns_added : Nat
  tables_created : Nat
  indexes_created : Nat
  success : Bool
  deriving Repr, DecidableEq

/-- The target columns of `migrate_files_table` (name, definition). -/
def new_columns : List (String × String) :=
  [("status", "TEXT DEFAULT 'active'"),
   ("content_hash", "TEXT"),
   ("deleted_at", "TIMESTAMP"),
   ("last_verified_at", "TIMESTAMP")]

/-- Embedding of `migrate_files_table`: the existing column set is read
once before the loop; every target column missing from it is added and
counted. -/
def migrate_files_table (cols : List String) : List String × Nat :=
  new_columns.foldl
    (fun acc t => if t.1 ∈ cols then acc else (acc.1 ++ [t.1], acc.2 + 1))
    (cols, 0)

/-- Embedding of `create_file_history_table`: create the table when
absent; the returned Bool reports whether it was created. -/
def create_file_history_table (historyTableExists : Bool) : Bool × Bool :=
  if historyTableExists then (true, false) else (true, true)

/-- The five index names of `create_indexes`. -/
def index_names : List String :=
  ["idx_files_status", "idx_files_content_hash", "idx_file_history_file_id",
   "idx_file_history_detected_at", "idx_file_history_event_type"]

/-- Embedding of `create_indexes`: each index is checked against the live
catalog (which reflects indexes created earlier in the same loop) and
created when missing. -/
def create_indexes (idxs : List String) : List String × Nat :=
  index_names.foldl
    (fun acc i => if i ∈ acc.1 then acc else (acc.1 ++ [i], acc.2 + 1))
    (idxs, 0)

/-- Embedding of `record_migration`: CREATE TABLE IF NOT EXISTS
`_migrations` (the version row itself is not schema). -/
def record_migration (s : Schema) : Schema :=
  { s with migrationsTableExists := true }

/-- Embedding of `migrate_database` (dry_run = False): skip databases
without a `files` table, otherwise add the missing columns, create
`file_history` and the indexes when absent, and record the migration. -/
def migrate_database (s : Schema) : Schema × MigrationResult :=
  if s.filesTableExists = false then
    (s, { columns_added := 0, tables_created := 0, indexes_created := 0, success := false })
  else
    let cols1 := migrate_files_table s.filesColumns
    let hist1 := create_file_history_table s.historyTableExists
    let idx1 := create_indexes s.indexes
    let s1 : Schema :=
      record_migration
        { s with filesColumns := cols1.1, historyTableExists := hist1.1, indexes := idx1.1 }
    (s1, { columns_added := cols1.2, tables_created := if hist1.2 then 1 else 0
           indexes_created := idx1.2, success := true })

/-! ## Theorems -/

/-- In-range year matches of the source scanner: the findall captures
filtered to 1970..2030. -/
def yearsInRange (s : String) : List Nat :=
  (findallYears s).filter (fun y => 1970 ≤ y && y ≤ 2030)

theorem extract_year_eq_max? (s : String) : extract_year s = (yearsInRange s).max? := by
  unfold extract_year yearsInRange
  cases h : findallYears s with
  | nil => simp
  | cons a l => simp [h]

/-- Claim C9 (counterexample): the claim's delimiter set (`/`, `_`, space,
string boundary) rejects `x-2024-y`, yet the source pattern also accepts
`-` as a delimiter and extracts 2024 there; the code and the claimed rule
disagree on this input. -/
theorem extract_year_delim_cex :
    extract_year "x-2024-y" = some 2024 ∧ claimYear "x-2024-y" = none := by
  constructor
  · decide
  · decide

/-- Claim C9 (amended): the extracted year is the largest year between
1970 and 2030 among the pattern's non-overlapping left-to-right matches,
where a delimiter is `/`, `_`, `-`, whitespace, or a string boundary and
the trailing delimiter of each match is consumed (so a year token starting
right after a previous match is not seen); null when no match is in
range. -/
theorem extract_year_is_max_of_scan (s : String) (y : Nat) :
    extract_year s = some y ↔ y ∈ yearsInRange s ∧ ∀ z ∈ yearsInRange s, z ≤ y := by
  rw [extract_year_eq_max?]
  exact List.max?_eq_some_iff'

/-- Witness for `extract_year_is_max_of_scan` at a concrete input. -/
theorem extract_year_is_max_of_scan_witness :
    extract_year "/WSOP/2019/sub/2024/f.mp4" = some 2024 :=
  (extract_year_is_max_of_scan "/WSOP/2019/sub/2024/f.mp4" 2024).mpr
    ⟨by decide, by decide⟩

/-- Claim C7 (counterexample): `generate_file_id` hashes the normalization
computed with `remove_prefix=False`, so the leading `//` the claim says is
stripped is in fact retained; instantiating the abstract digest with the
identity function separates the two derivations on a concrete UNC path. -/
theorem file_id_strip_cex :
    generate_file_id (fun s => s) "//Server/X.mp4" ≠
      generate_file_id_claim (fun s => s) "//Server/X.mp4" := by
  decide

/-- Claim C7 (amended): the stable file id is the digest of the lowercased
slash-normalized path with its leading `//` retained (`remove_prefix` is
passed as False), truncated to 16 characters; being a pure function of the
path, the derivation is deterministic. -/
theorem file_id_derivation (md5hex : String → String) (p : String) (h : p ≠ "") :
    generate_file_id md5hex p =
      String.mk ((md5hex (String.mk
        ((p.data.map (fun c => if c = '\\' then '/' else c)).map Char.toLower))).data.take 16)
    ∧ (generate_file_id md5hex p).length ≤ 16 := by
  have hnorm : normalize_nas_path p false =
      String.mk ((p.data.map (fun c => if c = '\\' then '/' else c)).map Char.toLower) := by
    unfold normalize_nas_path
    rw [if_neg h]
    simp
  constructor
  · rw [generate_file_id, hnorm]
  · rw [generate_file_id]
    simp only [String.length, List.length_take]
    omega

/-- Witness for `file_id_derivation` at a concrete UNC path. -/
theorem file_id_derivation_witness :
    generate_file_id (fun s => s) "//Server/X.mp4" =
      String.mk (((fun s : String => s) (String.mk
        (("//Server/X.mp4".data.map (fun c => if c = '\\' then '/' else c)).map
          Char.toLower))).data.take 16)
    ∧ (generate_file_id (fun s => s) "//Server/X.mp4").length ≤ 16 :=
  file_id_derivation (fun s => s) "//Server/X.mp4" (by decide)

/-- Claim C2 (counterexample): `find_by_hash_and_size` is restricted to
`status = 'active'`, so a `created` event whose identity `(h, 10)` equals
that of an existing deleted row does not reanimate it: a second row with a
fresh path-derived id is inserted, the deleted row keeps `status =
'deleted'`, and the history event type is `created`, not `reanimated`. -/
theorem reanimation_cex :
    handle_created
      ⟨fun s => s,
        ⟨fun p => if p = "/b/new.mp4" then some ⟨10, "new.mp4", "h"⟩ else none, fun _ => false⟩,
        "t1"⟩
      ⟨[⟨"oldid", "/a/old.mp4", "old.mp4", 10, "h", "deleted", some "t0", "t0", "t0",
          none, none⟩], [], true⟩
      "/b/new.mp4" =
    ⟨[⟨"oldid", "/a/old.mp4", "old.mp4", 10, "h", "deleted", some "t0", "t0", "t0",
        none, none⟩,
      ⟨"/b/new.mp4", "/b/new.mp4", "new.mp4", 10, "h", "active", none, "t1", "t1",
        none, none⟩],
      [⟨"/b/new.mp4", "created", none, some "/b/new.mp4", none, none⟩], true⟩ := by
  decide

/-- Claim C3 (counterexample): the catalog mutation and the history append
run on separate connections with separate commits, and `_log_history`
swallows the `OperationalError` raised when `file_history` is missing.  On
a store without the history table, a `deleted` event commits the soft
delete while the history record is silently dropped — the mutation
persists without its history row, contradicting the single-transaction
claim. -/
theorem atomic_history_cex :
    handle_deleted
      ⟨fun s => s, ⟨fun _ => none, fun _ => false⟩, "t1"⟩
      ⟨[⟨"f1", "/a/v.mp4", "v.mp4", 5, "h", "active", none, "t0", "t0", none, none⟩],
        [], false⟩
      "/a/v.mp4" =
    ⟨[⟨"f1", "/a/v.mp4", "v.mp4", 5, "h", "deleted", some "t1", "t0", "t1", none, none⟩],
      [], false⟩ := by
  decide

/-- Claim C4 (counterexample): `_handle_modified` overwrites hash and size
without checking other active rows, so one `modified` event applied to a
catalog satisfying the identity-pair invariant can produce two active rows
sharing `(size_bytes, content_hash)`. -/
theorem identity_unique_cex :
    identity_unique
      ⟨[⟨"1", "/a", "a", 1, "h1", "active", none, "t", "t", none, none⟩,
        ⟨"2", "/b", "b", 2, "h2", "active", none, "t", "t", none, none⟩], [], true⟩
    ∧ ¬ identity_unique
        (apply_event
          ⟨fun s => s, ⟨fun p => if p = "/b" then some ⟨1, "b", "h1"⟩ else none, fun _ => false⟩,
            "t1"⟩
          ⟨[⟨"1", "/a", "a", 1, "h1", "active", none, "t", "t", none, none⟩,
            ⟨"2", "/b", "b", 2, "h2", "active", none, "t", "t", none, none⟩], [], true⟩
          ⟨"modified", "/b", none, 0⟩) := by
  constructor
  · decide
  · decide

/-- Claim C5 (counterexample): `reconcile` marks a vanished active row
deleted by writing the catalog row directly — no `deleted` event is
synthesized, no history record is appended even though the history table
exists, and the surviving row's `last_verified_at` stays untouched. -/
theorem reconcile_events_cex :
    reconcile
      ⟨fun s => s, ⟨fun _ => none, fun p => p = "/there"⟩, "t1"⟩
      ⟨[⟨"g", "/gone", "gone", 1, "h1", "active", none, "t", "t", none, none⟩,
        ⟨"s", "/there", "there", 2, "h2", "active", none, "t", "t", none, none⟩], [], true⟩ =
    ⟨[⟨"g", "/gone", "gone", 1, "h1", "deleted", some "t1", "t", "t1", none, none⟩,
      ⟨"s", "/there", "there", 2, "h2", "active", none, "t", "t", none, none⟩], [], true⟩ := by
  decide

/-- Claim C8 (counterexample): `_create_file` inserts the new row without
ever invoking the metadata extractor — the inserted row's metadata is
null even though the extractor derives year 2024 from this path. -/
theorem created_metadata_cex :
    ((handle_created
        ⟨fun s => s,
          ⟨fun p => if p = "/archive/2024/v.mp4" then some ⟨5, "v.mp4", "h"⟩ else none,
            fun _ => false⟩,
          "t1"⟩
        ⟨[], [], true⟩
        "/archive/2024/v.mp4").files.map (·.year)) = [none]
    ∧ extract_year "/archive/2024/v.mp4" = some 2024 := by
  constructor
  · decide
  · decide

/-- Claim C2 (amended): a `created` event whose identity matches no
*active* row — in particular one matching only a `status = deleted` row —
is treated as a genuinely new file: every existing row (the deleted one
included) is left unchanged, one new row with a fresh path-derived id and
`status = active` is appended, and the history record appended (when the
history table exists) has event type `created`; no reanimation path
exists in the code. -/
theorem created_treats_deleted_identity_as_new
    (ctx : TrackerCtx) (db : DB) (path : String) (identity : FileIdentity)
    (hread : ctx.fs.compute path = some identity)
    (hnoactive : find_by_hash_and_size db.files identity.content_hash identity.size = none)
    (hfresh : ∀ r ∈ db.files, r.id ≠ generate_file_id ctx.md5hex path ∧ r.nas_path ≠ path) :
    (handle_created ctx db path).files = db.files ++
      [⟨generate_file_id ctx.md5hex path, path, identity.filename, identity.size,
        identity.content_hash, "active", none, ctx.now, ctx.now, none, none⟩]
    ∧ (handle_created ctx db path).file_history = db.file_history ++
        (if db.hasHistoryTable then
          [⟨generate_file_id ctx.md5hex path, "created", none, some path, none, none⟩]
         else []) := by
  have hguard :
      (db.files.any fun r => r.id == generate_file_id ctx.md5hex path || r.nas_path == path)
        = false := by
    rw [List.any_eq_false]
    intro r hr
    obtain ⟨h1, h2⟩ := hfresh r hr
    simp [h1, h2]
  simp only [handle_created, hread, hnoactive, create_file, hguard, Bool.false_eq_true,
    if_false, log_history]
  by_cases ht : db.hasHistoryTable <;> simp [ht]

/-- Witness for `created_treats_deleted_identity_as_new`: a store holding
one deleted row with identity `("h", 10)` and a `created` event carrying
the same identity at a fresh path. -/
theorem created_treats_deleted_identity_as_new_witness :
    (handle_created
        ⟨fun s => s,
          ⟨fun p => if p = "/c/copy.mp4" then some ⟨10, "copy.mp4", "h"⟩ else none,
            fun _ => false⟩, "t2"⟩
        ⟨[⟨"d1", "/a/old.mp4", "old.mp4", 10, "h", "deleted", some "t1", "t0", "t1",
            none, none⟩], [], true⟩
        "/c/copy.mp4").files =
      [⟨"d1", "/a/old.mp4", "old.mp4", 10, "h", "deleted", some "t1", "t0", "t1",
          none, none⟩] ++
        [⟨generate_file_id (fun s => s) "/c/copy.mp4", "/c/copy.mp4", "copy.mp4", 10,
          "h", "active", none, "t2", "t2", none, none⟩]
    ∧ (handle_created
        ⟨fun s => s,
          ⟨fun p => if p = "/c/copy.mp4" then some ⟨10, "copy.mp4", "h"⟩ else none,
            fun _ => false⟩, "t2"⟩
        ⟨[⟨"d1", "/a/old.mp4", "old.mp4", 10, "h", "deleted", some "t1", "t0", "t1",
            none, none⟩], [], true⟩
        "/c/copy.mp4").file_history = [] ++
        (if (true : Bool) then
          [⟨generate_file_id (fun s => s) "/c/copy.mp4", "created", none,
            some "/c/copy.mp4", none, none⟩]
         else []) :=
  created_treats_deleted_identity_as_new
    ⟨fun s => s,
      ⟨fun p => if p = "/c/copy.mp4" then some ⟨10, "copy.mp4", "h"⟩ else none,
        fun _ => false⟩, "t2"⟩
    ⟨[⟨"d1", "/a/old.mp4", "old.mp4", 10, "h", "deleted", some "t1", "t0", "t1",
        none, none⟩], [], true⟩
    "/c/copy.mp4" ⟨10, "copy.mp4", "h"⟩ (by decide) (by decide) (by decide)

/-- Claim C3 (amended): for a `deleted` event on an active row, the
catalog mutation and the history append are committed by separate
connections: the soft delete always persists, while the `deleted` history
record is appended only when the `file_history` table exists — when it is
missing the failure is swallowed and the mutation persists without its
history record. -/
theorem deleted_mutation_and_history_commits
    (ctx : TrackerCtx) (db : DB) (path : String) (row : FileRow)
    (hfind : db.files.find? (fun r => r.nas_path == path && r.status == "active")
      = some row) :
    (handle_deleted ctx db path).files =
      db.files.map (fun r => if r.id == row.id then softDelete ctx.now r else r)
    ∧ (handle_deleted ctx db path).file_history = db.file_history ++
        (if db.hasHistoryTable then [⟨row.id, "deleted", some path, none, none, none⟩]
         else [])
    ∧ (handle_deleted ctx db path).hasHistoryTable = db.hasHistoryTable := by
  simp only [handle_deleted, hfind, log_history]
  by_cases ht : db.hasHistoryTable <;> simp [ht]

/-- Witness for `deleted_mutation_and_history_commits` on a one-row store
whose history table is missing. -/
theorem deleted_mutation_and_history_commits_witness :
    (handle_deleted ⟨fun s => s, ⟨fun _ => none, fun _ => false⟩, "t9"⟩
        ⟨[⟨"w1", "/w/x.mp4", "x.mp4", 3, "hw", "active", none, "t0", "t0", none, none⟩],
          [], false⟩
        "/w/x.mp4").files =
      [⟨"w1", "/w/x.mp4", "x.mp4", 3, "hw", "active", none, "t0", "t0", none, none⟩].map
        (fun r => if r.id == "w1" then softDelete "t9" r else r)
    ∧ (handle_deleted ⟨fun s => s, ⟨fun _ => none, fun _ => false⟩, "t9"⟩
        ⟨[⟨"w1", "/w/x.mp4", "x.mp4", 3, "hw", "active", none, "t0", "t0", none, none⟩],
          [], false⟩
        "/w/x.mp4").file_history = [] ++
        (if (false : Bool) then [⟨"w1", "deleted", some "/w/x.mp4", none, none, none⟩]
         else [])
    ∧ (handle_deleted ⟨fun s => s, ⟨fun _ => none, fun _ => false⟩, "t9"⟩
        ⟨[⟨"w1", "/w/x.mp4", "x.mp4", 3, "hw", "active", none, "t0", "t0", none, none⟩],
          [], false⟩
        "/w/x.mp4").hasHistoryTable = false :=
  deleted_mutation_and_history_commits
    ⟨fun s => s, ⟨fun _ => none, fun _ => false⟩, "t9"⟩
    ⟨[⟨"w1", "/w/x.mp4", "x.mp4", 3, "hw", "active", none, "t0", "t0", none, none⟩],
      [], false⟩
    "/w/x.mp4"
    ⟨"w1", "/w/x.mp4", "x.mp4", 3, "hw", "active", none, "t0", "t0", none, none⟩
    (by decide)

/-- Claim C8 (amended): a `created` event on a genuinely new readable
file inserts one row with `status = active` and appends a `created`
history record (when the history table exists), but the metadata
extractor is never invoked: the inserted row's extracted-metadata fields
keep their NULL defaults. -/
theorem create_file_leaves_metadata_null
    (ctx : TrackerCtx) (db : DB) (path : String) (identity : FileIdentity)
    (hread : ctx.fs.compute path = some identity)
    (hnoactive : find_by_hash_and_size db.files identity.content_hash identity.size = none)
    (hfresh : ∀ r ∈ db.files, r.id ≠ generate_file_id ctx.md5hex path ∧ r.nas_path ≠ path) :
    ∃ row : FileRow,
      (handle_created ctx db path).files = db.files ++ [row]
      ∧ row.status = "active" ∧ row.year = none ∧ row.nas_path = path
      ∧ (handle_created ctx db path).file_history = db.file_history ++
          (if db.hasHistoryTable then [⟨row.id, "created", none, some path, none, none⟩]
           else []) := by
  have hguard :
      (db.files.any fun r => r.id == generate_file_id ctx.md5hex path || r.nas_path == path)
        = false := by
    rw [List.any_eq_false]
    intro r hr
    obtain ⟨h1, h2⟩ := hfresh r hr
    simp [h1, h2]
  refine ⟨⟨generate_file_id ctx.md5hex path, path, identity.filename, identity.size,
    identity.content_hash, "active", none, ctx.now, ctx.now, none, none⟩, ?_, rfl, rfl, rfl, ?_⟩
  · simp only [handle_created, hread, hnoactive, create_file, hguard, Bool.false_eq_true,
      if_false, log_history]
    by_cases ht : db.hasHistoryTable <;> simp [ht]
  · simp only [handle_created, hread, hnoactive, create_file, hguard, Bool.false_eq_true,
      if_false, log_history]
    by_cases ht : db.hasHistoryTable <;> simp [ht]

/-- Witness for `create_file_leaves_metadata_null` on an empty store and
a path the extractor would parse a year from. -/
theorem create_file_leaves_metadata_null_witness :
    ∃ row : FileRow,
      (handle_created
          ⟨fun s => s,
            ⟨fun p => if p = "/nas/2019/w.mp4" then some ⟨7, "w.mp4", "hz"⟩ else none,
              fun _ => false⟩, "t3"⟩
          ⟨[], [], true⟩ "/nas/2019/w.mp4").files = [] ++ [row]
      ∧ row.status = "active" ∧ row.year = none ∧ row.nas_path = "/nas/2019/w.mp4"
      ∧ (handle_created
          ⟨fun s => s,
            ⟨fun p => if p = "/nas/2019/w.mp4" then some ⟨7, "w.mp4", "hz"⟩ else none,
              fun _ => false⟩, "t3"⟩
          ⟨[], [], true⟩ "/nas/2019/w.mp4").file_history = [] ++
          (if (true : Bool) then [⟨row.id, "created", none, some "/nas/2019/w.mp4", none, none⟩]
           else []) :=
  create_file_leaves_metadata_null
    ⟨fun s => s,
      ⟨fun p => if p = "/nas/2019/w.mp4" then some ⟨7, "w.mp4", "hz"⟩ else none,
        fun _ => false⟩, "t3"⟩
    ⟨[], [], true⟩ "/nas/2019/w.mp4" ⟨7, "w.mp4", "hz"⟩
    (by decide) (by decide) (by decide)

theorem softDelete_idem (now : String) (r : FileRow) :
    softDelete now (softDelete now r) = softDelete now r := rfl

theorem softDelete_id_eq (now : String) (r : FileRow) :
    (softDelete now r).id = r.id := rfl

/-- Characterization of the reconciliation fold: running the snapshot
loop marks exactly the rows whose id occurs among the snapshot entries
with a vanished path, and touches nothing else. -/
theorem reconcile_fold_char (ctx : TrackerCtx) (snap : List FileRow) (db : DB) :
    snap.foldl (fun acc a =>
      if ctx.fs.pathExists a.nas_path then acc
      else { acc with files := acc.files.map fun r =>
        if r.id == a.id then softDelete ctx.now r else r }) db
    = { db with files := db.files.map (fun r =>
        if r.id ∈ (snap.filter (fun a => !(ctx.fs.pathExists a.nas_path))).map (·.id)
        then softDelete ctx.now r else r) } := by
  induction snap generalizing db with
  | nil => simp
  | cons a rest ih =>
    simp only [List.foldl_cons]
    by_cases hex : ctx.fs.pathExists a.nas_path
    · rw [if_pos hex, ih]
      have hfilter : (a :: rest).filter (fun x => !(ctx.fs.pathExists x.nas_path))
          = rest.filter (fun x => !(ctx.fs.pathExists x.nas_path)) := by
        simp [List.filter_cons, hex]
      rw [hfilter]
    · rw [if_neg hex, ih]
      have hfilter : (a :: rest).filter (fun x => !(ctx.fs.pathExists x.nas_path))
          = a :: rest.filter (fun x => !(ctx.fs.pathExists x.nas_path)) := by
        simp [List.filter_cons, hex]
      rw [hfilter, List.map_map]
      congr 1
      apply List.map_congr_left
      intro r _
      simp only [Function.comp_apply, List.map_cons, List.mem_cons]
      by_cases hid : r.id = a.id
      · have h1 : (r.id == a.id) = true := by simp [hid]
        rw [h1]
        simp only [if_true]
        rw [if_pos (Or.inl hid)]
        by_cases hmem :
            (softDelete ctx.now r).id ∈
              (rest.filter fun x => !(ctx.fs.pathExists x.nas_path)).map (·.id)
        · rw [if_pos hmem, softDelete_idem]
        · rw [if_neg hmem]
      · have h1 : (r.id == a.id) = false := by simp [hid]
        rw [h1]
        simp only [Bool.false_eq_true, if_false]
        by_cases hmem :
            r.id ∈ (rest.filter fun x => !(ctx.fs.pathExists x.nas_path)).map (·.id)
        · rw [if_pos hmem, if_pos (Or.inr hmem)]
        · rw [if_neg hmem, if_neg ?_]
          rintro (h | h)
          · exact hid h
          · exact hmem h

/-- Claim C5 (amended): the reconciliation sweep writes catalog rows
directly instead of routing events through the applier: every active row
whose path no longer exists is overwritten in place to `status = deleted`
(with `deleted_at` set), all other rows — surviving active rows included —
are left byte-for-byte unchanged (`last_verified_at` is never updated),
and no history record is appended. -/
theorem reconcile_direct_writes (ctx : TrackerCtx) (db : DB)
    (hnodup : (db.files.map (·.id)).Nodup) :
    (reconcile ctx db).files = db.files.map (fun r =>
        if r.status = "active" ∧ ctx.fs.pathExists r.nas_path = false
        then softDelete ctx.now r else r)
    ∧ (reconcile ctx db).file_history = db.file_history
    ∧ (reconcile ctx db).hasHistoryTable = db.hasHistoryTable := by
  unfold reconcile
  rw [reconcile_fold_char]
  refine ⟨?_, rfl, rfl⟩
  apply List.map_congr_left
  intro r hr
  have hiff : (r.id ∈ ((db.files.filter fun x => x.status == "active").filter
        (fun a => !(ctx.fs.pathExists a.nas_path))).map (·.id))
      ↔ (r.status = "active" ∧ ctx.fs.pathExists r.nas_path = false) := by
    constructor
    · rintro hmem
      rw [List.mem_map] at hmem
      obtain ⟨a, hamem, haid⟩ := hmem
      rw [List.mem_filter] at hamem
      obtain ⟨hamem2, hgone⟩ := hamem
      rw [List.mem_filter] at hamem2
      obtain ⟨hamem3, hact⟩ := hamem2
      have : a = r := List.inj_on_of_nodup_map hnodup hamem3 hr haid
      subst this
      constructor
      · exact of_decide_eq_true hact
      · simpa using hgone
    · rintro ⟨hact, hgone⟩
      rw [List.mem_map]
      refine ⟨r, ?_, rfl⟩
      rw [List.mem_filter]
      refine ⟨?_, by simp [hgone]⟩
      rw [List.mem_filter]
      exact ⟨hr, by simp [hact]⟩
  exact if_congr hiff rfl rfl

/-- Witness for `reconcile_direct_writes`: a two-row store where one path
survives and the other is gone. -/
theorem reconcile_direct_writes_witness :
    (reconcile ⟨fun s => s, ⟨fun _ => none, fun p => p = "/keep"⟩, "t4"⟩
      ⟨[⟨"k", "/keep", "keep", 1, "h1", "active", none, "t", "t", none, none⟩,
        ⟨"g", "/lost", "lost", 2, "h2", "active", none, "t", "t", none, none⟩],
        [], true⟩).files =
      [⟨"k", "/keep", "keep", 1, "h1", "active", none, "t", "t", none, none⟩,
       ⟨"g", "/lost", "lost", 2, "h2", "active", none, "t", "t", none, none⟩].map
        (fun r => if r.status = "active" ∧ (fun p => decide (p = "/keep")) r.nas_path = false
          then softDelete "t4" r else r)
    ∧ (reconcile ⟨fun s => s, ⟨fun _ => none, fun p => p = "/keep"⟩, "t4"⟩
        ⟨[⟨"k", "/keep", "keep", 1, "h1", "active", none, "t", "t", none, none⟩,
          ⟨"g", "/lost", "lost", 2, "h2", "active", none, "t", "t", none, none⟩],
          [], true⟩).file_history = []
    ∧ (reconcile ⟨fun s => s, ⟨fun _ => none, fun p => p = "/keep"⟩, "t4"⟩
        ⟨[⟨"k", "/keep", "keep", 1, "h1", "active", none, "t", "t", none, none⟩,
          ⟨"g", "/lost", "lost", 2, "h2", "active", none, "t", "t", none, none⟩],
          [], true⟩).hasHistoryTable = true :=
  reconcile_direct_writes
    ⟨fun s => s, ⟨fun _ => none, fun p => p = "/keep"⟩, "t4"⟩
    ⟨[⟨"k", "/keep", "keep", 1, "h1", "active", none, "t", "t", none, none⟩,
      ⟨"g", "/lost", "lost", 2, "h2", "active", none, "t", "t", none, none⟩],
      [], true⟩
    (by decide)

theorem log_history_files (db : DB) (a b : String) (c d e f : Option String) :
    (log_history db a b c d e f).files = db.files := by
  unfold log_history
  split <;> rfl

/-- The identity-pair relation between two catalog rows. -/
theorem pairwise_identity_map (l : List FileRow) (f : FileRow → FileRow)
    (hsize : ∀ r, (f r).size_bytes = r.size_bytes)
    (hhash : ∀ r, (f r).content_hash = r.content_hash)
    (hstat : ∀ r, (f r).status = "active" → r.status = "active")
    (h : l.Pairwise fun r1 r2 => r1.status = "active" → r2.status = "active" →
      ¬(r1.size_bytes = r2.size_bytes ∧ r1.content_hash = r2.content_hash)) :
    (l.map f).Pairwise fun r1 r2 => r1.status = "active" → r2.status = "active" →
      ¬(r1.size_bytes = r2.size_bytes ∧ r1.content_hash = r2.content_hash) := by
  rw [List.pairwise_map]
  apply h.imp
  intro a b hab ha hb
  rw [hsize a, hsize b, hhash a, hhash b]
  exact hab (hstat a ha) (hstat b hb)

theorem pairwise_identity_append (l : List FileRow) (row : FileRow)
    (h : l.Pairwise fun r1 r2 => r1.status = "active" → r2.status = "active" →
      ¬(r1.size_bytes = r2.size_bytes ∧ r1.content_hash = r2.content_hash))
    (hfresh : ∀ r ∈ l, r.status = "active" →
      ¬(r.size_bytes = row.size_bytes ∧ r.content_hash = row.content_hash)) :
    (l ++ [row]).Pairwise fun r1 r2 => r1.status = "active" → r2.status = "active" →
      ¬(r1.size_bytes = r2.size_bytes ∧ r1.content_hash = r2.content_hash) := by
  rw [List.pairwise_append]
  refine ⟨h, by simp, ?_⟩
  intro a ha b hb
  rw [List.mem_singleton] at hb
  subst hb
  intro hact _
  exact hfresh a ha hact

theorem find_identity_none (files : List FileRow) (ch : String) (sz : Nat)
    (hnone : find_by_hash_and_size files ch sz = none) :
    ∀ r ∈ files, r.status = "active" →
      ¬(r.size_bytes = sz ∧ r.content_hash = ch) := by
  unfold find_by_hash_and_size at hnone
  rw [Option.map_eq_none'] at hnone
  rw [List.find?_eq_none] at hnone
  intro r hr hact ⟨h1, h2⟩
  exact hnone r hr (by simp [h1, h2, hact])

theorem handle_created_preserves (ctx : TrackerCtx) (db : DB) (path : String)
    (h : identity_unique db) : identity_unique (handle_created ctx db path) := by
  unfold identity_unique at h ⊢
  cases hc : ctx.fs.compute path with
  | none =>
    simp only [handle_created, hc]
    exact h
  | some identity =>
    cases hf : find_by_hash_and_size db.files identity.content_hash identity.size with
    | some pr =>
      obtain ⟨fid, opath⟩ := pr
      cases hpr : update_path ctx db fid path with
      | none =>
        simp only [handle_created, hc, hf, hpr]
        exact h
      | some db1 =>
        simp only [handle_created, hc, hf, hpr, log_history_files]
        unfold update_path at hpr
        split at hpr
        · exact absurd hpr (by simp)
        · rw [Option.some.injEq] at hpr
          subst hpr
          apply pairwise_identity_map _ _ ?_ ?_ ?_ h <;>
            intro r <;> by_cases hid : (r.id == fid) = true <;>
              simp [hid, rewritePath]
    | none =>
      simp only [handle_created, hc, hf, create_file]
      split
      · exact h
      · simp only [log_history_files]
        exact pairwise_identity_append _ _ h (find_identity_none db.files _ _ hf)

theorem handle_deleted_preserves (ctx : TrackerCtx) (db : DB) (path : String)
    (h : identity_unique db) : identity_unique (handle_deleted ctx db path) := by
  unfold identity_unique at h ⊢
  cases hf : db.files.find? (fun r => r.nas_path == path && r.status == "active") with
  | none =>
    simp only [handle_deleted, hf]
    exact h
  | some row =>
    simp only [handle_deleted, hf, log_history_files]
    apply pairwise_identity_map _ _ ?_ ?_ ?_ h <;>
      intro r <;> by_cases hid : (r.id == row.id) = true <;>
        simp [hid, softDelete]

theorem handle_moved_preserves (ctx : TrackerCtx) (db : DB) (src : String)
    (dst : Option String) (h : identity_unique db) :
    identity_unique (handle_moved ctx db src dst) := by
  cases dst with
  | none =>
    simp only [handle_moved]
    exact h
  | some dst_path =>
    cases hf : db.files.find? (fun r => r.nas_path == src) with
    | none =>
      simp only [handle_moved, hf]
      exact handle_created_preserves ctx db dst_path h
    | some row =>
      simp only [handle_moved, hf]
      split
      · exact h
      · unfold identity_unique at h ⊢
        simp only [log_history_files]
        apply pairwise_identity_map _ _ ?_ ?_ ?_ h <;>
          intro r <;> by_cases hid : (r.id == row.id) = true <;>
            simp [hid, rewritePath]

theorem handle_modified_preserves (ctx : TrackerCtx) (db : DB) (path : String)
    (hnodup : (db.files.map (·.id)).Nodup)
    (h : identity_unique db)
    (hside : ∀ identity row, ctx.fs.compute path = some identity →
      db.files.find? (fun r => r.nas_path == path) = some row →
      ∀ r ∈ db.files, r.id ≠ row.id → r.status = "active" →
        ¬(r.size_bytes = identity.size ∧ r.content_hash = identity.content_hash)) :
    identity_unique (handle_modified ctx db path) := by
  unfold identity_unique at h ⊢
  cases hc : ctx.fs.compute path with
  | none =>
    simp only [handle_modified, hc]
    exact h
  | some identity =>
    cases hf : db.files.find? (fun r => r.nas_path == path) with
    | none =>
      simp only [handle_modified, hc, hf]
      exact h
    | some row =>
      simp only [handle_modified, hc, hf]
      split
      case isFalse => exact h
      case isTrue hne =>
        simp only [log_history_files]
        rw [List.pairwise_map]
        have hinj : ∀ a ∈ db.files, ∀ b ∈ db.files, a.id = b.id → a = b := by
          intro a ha b hb hab
          exact List.inj_on_of_nodup_map hnodup ha hb hab
        apply h.imp_of_mem
        intro a b hma hmb hab
        by_cases hia : (a.id == row.id) = true <;> by_cases hib : (b.id == row.id) = true
        · have : a = b := by
            apply hinj a hma b hmb
            rw [beq_iff_eq] at hia hib
            rw [hia, hib]
          subst this
          simp only [hia, if_true]
          intro hact _
          by_cases hact0 : a.status = "active"
          · exact absurd ⟨rfl, rfl⟩ (hab hact0 hact0)
          · exact absurd hact hact0
        · simp only [hia, hib, if_true, if_false]
          intro hact1 hact2 ⟨hs, hh⟩
          have hbid : b.id ≠ row.id := by simpa using hib
          exact hside identity row hc hf b hmb hbid hact2 ⟨hs.symm, hh.symm⟩
        · simp only [hia, hib, if_true, if_false]
          intro hact1 hact2 ⟨hs, hh⟩
          have haid : a.id ≠ row.id := by simpa using hia
          exact hside identity row hc hf a hma haid hact1 ⟨hs, hh⟩
        · simp only [hia, hib, if_false]
          exact hab

/-- Claim C4 (amended): the identity-pair invariant — no two active rows
share `(size_bytes, content_hash)` — is preserved by every `created`,
`moved` and `deleted` event, and by a `modified` event *provided* the
newly computed identity does not coincide with the identity of another
active row (the code performs no such check, so a modified file whose new
content matches another active file breaks the invariant, cf. the
counterexample); ids are assumed unique as the PRIMARY KEY guarantees. -/
theorem identity_unique_preservation (ctx : TrackerCtx) (db : DB) (e : TrackerEvent)
    (hnodup : (db.files.map (·.id)).Nodup)
    (hinv : identity_unique db)
    (hmod : ∀ identity row, e.event_type = "modified" →
      ctx.fs.compute e.src_path = some identity →
      db.files.find? (fun r => r.nas_path == e.src_path) = some row →
      ∀ r ∈ db.files, r.id ≠ row.id → r.status = "active" →
        ¬(r.size_bytes = identity.size ∧ r.content_hash = identity.content_hash)) :
    identity_unique (apply_event ctx db e) := by
  unfold apply_event
  by_cases h1 : e.event_type = "created"
  · rw [if_pos h1]
    exact handle_created_preserves ctx db e.src_path hinv
  rw [if_neg h1]
  by_cases h2 : e.event_type = "deleted"
  · rw [if_pos h2]
    exact handle_deleted_preserves ctx db e.src_path hinv
  rw [if_neg h2]
  by_cases h3 : e.event_type = "moved"
  · rw [if_pos h3]
    exact handle_moved_preserves ctx db e.src_path e.dst_path hinv
  rw [if_neg h3]
  by_cases h4 : e.event_type = "modified"
  · rw [if_pos h4]
    exact handle_modified_preserves ctx db e.src_path hnodup hinv
      (fun identity row => hmod identity row h4)
  · rw [if_neg h4]
    exact hinv

/-- Witness for `identity_unique_preservation`: a `deleted` event on a
two-row catalog satisfying the invariant. -/
theorem identity_unique_preservation_witness :
    identity_unique
      (apply_event ⟨fun s => s, ⟨fun _ => none, fun _ => false⟩, "t5"⟩
        ⟨[⟨"1", "/a", "a", 1, "h1", "active", none, "t", "t", none, none⟩,
          ⟨"2", "/b", "b", 2, "h2", "active", none, "t", "t", none, none⟩], [], true⟩
        ⟨"deleted", "/a", none, 0⟩) :=
  identity_unique_preservation
    ⟨fun s => s, ⟨fun _ => none, fun _ => false⟩, "t5"⟩
    ⟨[⟨"1", "/a", "a", 1, "h1", "active", none, "t", "t", none, none⟩,
      ⟨"2", "/b", "b", 2, "h2", "active", none, "t", "t", none, none⟩], [], true⟩
    ⟨"deleted", "/a", none, 0⟩
    (by decide) (by decide)
    (by intro identity row he; exact absurd he (by decide))

theorem mft_fold_mem_mono (cols : List String) (ts : List (String × String))
    (acc : List String × Nat) (x : String) (hx : x ∈ acc.1) :
    x ∈ (ts.foldl
      (fun acc t => if t.1 ∈ cols then acc else (acc.1 ++ [t.1], acc.2 + 1)) acc).1 := by
  induction ts generalizing acc with
  | nil => exact hx
  | cons t rest ih =>
    simp only [List.foldl_cons]
    by_cases h : t.1 ∈ cols
    · rw [if_pos h]
      exact ih _ hx
    · rw [if_neg h]
      exact ih _ (by simp [hx])

theorem mft_fold_mem_targets (cols : List String) (ts : List (String × String))
    (acc : List String × Nat) (hsub : ∀ x ∈ cols, x ∈ acc.1) :
    ∀ t ∈ ts, t.1 ∈ (ts.foldl
      (fun acc t => if t.1 ∈ cols then acc else (acc.1 ++ [t.1], acc.2 + 1)) acc).1 := by
  induction ts generalizing acc with
  | nil => simp
  | cons t rest ih =>
    intro u hu
    simp only [List.foldl_cons]
    rcases List.mem_cons.mp hu with huh | hurest
    · subst huh
      by_cases h : u.1 ∈ cols
      · rw [if_pos h]
        exact mft_fold_mem_mono cols rest _ _ (hsub _ h)
      · rw [if_neg h]
        exact mft_fold_mem_mono cols rest _ _ (by simp)
    · by_cases h : t.1 ∈ cols
      · rw [if_pos h]
        exact ih _ hsub u hurest
      · rw [if_neg h]
        exact ih _ (fun x hx => by simp [hsub x hx]) u hurest

theorem mft_fold_noop (cols : List String) (ts : List (String × String))
    (acc : List String × Nat) (hall : ∀ t ∈ ts, t.1 ∈ cols) :
    ts.foldl (fun acc t => if t.1 ∈ cols then acc else (acc.1 ++ [t.1], acc.2 + 1)) acc
      = acc := by
  induction ts generalizing acc with
  | nil => rfl
  | cons t rest ih =>
    simp only [List.foldl_cons]
    rw [if_pos (hall t (by simp))]
    exact ih _ (fun u hu => hall u (by simp [hu]))

theorem ci_fold_mem_mono (names : List String) (acc : List String × Nat) (x : String)
    (hx : x ∈ acc.1) :
    x ∈ (names.foldl
      (fun acc i => if i ∈ acc.1 then acc else (acc.1 ++ [i], acc.2 + 1)) acc).1 := by
  induction names generalizing acc with
  | nil => exact hx
  | cons n rest ih =>
    simp only [List.foldl_cons]
    by_cases h : n ∈ acc.1
    · rw [if_pos h]
      exact ih _ hx
    · rw [if_neg h]
      exact ih _ (by simp [hx])

theorem ci_fold_mem_targets (names : List String) (acc : List String × Nat) :
    ∀ i ∈ names, i ∈ (names.foldl
      (fun acc i => if i ∈ acc.1 then acc else (acc.1 ++ [i], acc.2 + 1)) acc).1 := by
  induction names generalizing acc with
  | nil => simp
  | cons n rest ih =>
    intro u hu
    simp only [List.foldl_cons]
    rcases List.mem_cons.mp hu with huh | hurest
    · subst huh
      by_cases h : u ∈ acc.1
      · rw [if_pos h]
        exact ci_fold_mem_mono rest _ _ h
      · rw [if_neg h]
        exact ci_fold_mem_mono rest _ _ (by simp)
    · by_cases h : n ∈ acc.1
      · rw [if_pos h]
        exact ih _ u hurest
      · rw [if_neg h]
        exact ih _ u hurest

theorem ci_fold_noop (names : List String) (acc : List String × Nat)
    (hall : ∀ i ∈ names, i ∈ acc.1) :
    names.foldl (fun acc i => if i ∈ acc.1 then acc else (acc.1 ++ [i], acc.2 + 1)) acc
      = acc := by
  induction names generalizing acc with
  | nil => rfl
  | cons n rest ih =>
    simp only [List.foldl_cons]
    rw [if_pos (hall n (by simp))]
    exact ih _ (fun u hu => hall u (by simp [hu]))

/-- Claim C10: running the schema migration twice in succession leaves
the database unchanged the second time — the second run adds zero
columns, creates zero tables and zero indexes, and returns exactly the
schema the first run produced, because every target column, the
`file_history` table and every index is only added when missing. -/
theorem migration_idempotent (s : Schema) :
    (migrate_database (migrate_database s).1).2.columns_added = 0
    ∧ (migrate_database (migrate_database s).1).2.tables_created = 0
    ∧ (migrate_database (migrate_database s).1).2.indexes_created = 0
    ∧ (migrate_database (migrate_database s).1).1 = (migrate_database s).1 := by
  by_cases hf : s.filesTableExists = false
  · simp [migrate_database, hf]
  · have hf2 : s.filesTableExists = true := by
      cases h : s.filesTableExists
      · exact absurd h hf
      · rfl
    have hcols : migrate_files_table (migrate_files_table s.filesColumns).1
        = ((migrate_files_table s.filesColumns).1, 0) := by
      apply mft_fold_noop
      intro t ht
      exact mft_fold_mem_targets s.filesColumns new_columns (s.filesColumns, 0)
        (fun x hx => hx) t ht
    have hidx : create_indexes (create_indexes s.indexes).1
        = ((create_indexes s.indexes).1, 0) := by
      apply ci_fold_noop
      intro i hi
      exact ci_fold_mem_targets index_names (s.indexes, 0) i hi
    simp [migrate_database, hf2, record_migration, create_file_history_table,
      migrate_files_table, create_indexes] at hcols hidx ⊢
    simp [hcols, hidx]
    by_cases hh : s.historyTableExists = true <;> simp [hh]

theorem put_empty (e : TrackerEvent) : put [] e = [(e.src_path, e)] := rfl

theorem put_single_key (p : String) (ev e : TrackerEvent) (he : e.src_path = p) :
    put [(p, ev)] e = if ev.event_type = "deleted" then [(p, ev)]
      else if e.event_type = "deleted" then [(p, e)]
      else if ev.timestamp < e.timestamp then [(p, e)] else [(p, ev)] := by
  unfold put pendingLookup pendingSet
  rw [he]
  simp [List.find?_cons]

theorem put_fold_deleted (p : String) (evs : List TrackerEvent)
    (hp : ∀ e ∈ evs, e.src_path = p) :
    ∀ state : List (String × TrackerEvent),
      (state = [] ∨ ∃ ev, state = [(p, ev)] ∧ ev.src_path = p) →
      ((∃ e ∈ evs, e.event_type = "deleted") ∨
        (∃ ev, state = [(p, ev)] ∧ ev.src_path = p ∧ ev.event_type = "deleted")) →
      ∃ ev, evs.foldl put state = [(p, ev)] ∧ ev.src_path = p
        ∧ ev.event_type = "deleted" := by
  induction evs with
  | nil =>
    intro state _ hev
    rcases hev with ⟨e, he, _⟩ | ⟨ev, hst, h1, h2⟩
    · exact absurd he (List.not_mem_nil e)
    · exact ⟨ev, hst, h1, h2⟩
  | cons e rest ih =>
    intro state hshape hev
    have hesrc : e.src_path = p := hp e (by simp)
    have hprest : ∀ x ∈ rest, x.src_path = p := fun x hx => hp x (by simp [hx])
    rcases hshape with hnil | ⟨ev, hst, hevsrc⟩
    · subst hnil
      simp only [List.foldl_cons, put_empty, hesrc]
      by_cases hed : e.event_type = "deleted"
      · exact ih hprest [(p, e)] (Or.inr ⟨e, rfl, hesrc⟩) (Or.inr ⟨e, rfl, hesrc, hed⟩)
      · rcases hev with ⟨e', he', hd'⟩ | ⟨ev, hst, _, _⟩
        · rcases List.mem_cons.mp he' with rfl | hrest
          · exact absurd hd' hed
          · exact ih hprest [(p, e)] (Or.inr ⟨e, rfl, hesrc⟩) (Or.inl ⟨e', hrest, hd'⟩)
        · exact absurd hst (by simp)
    · subst hst
      simp only [List.foldl_cons]
      rw [put_single_key p ev e hesrc]
      by_cases hevd : ev.event_type = "deleted"
      · rw [if_pos hevd]
        exact ih hprest [(p, ev)] (Or.inr ⟨ev, rfl, hevsrc⟩) (Or.inr ⟨ev, rfl, hevsrc, hevd⟩)
      · rw [if_neg hevd]
        by_cases hed : e.event_type = "deleted"
        · rw [if_pos hed]
          exact ih hprest [(p, e)] (Or.inr ⟨e, rfl, hesrc⟩) (Or.inr ⟨e, rfl, hesrc, hed⟩)
        · rw [if_neg hed]
          have hevrest : ∃ e' ∈ rest, e'.event_type = "deleted" := by
            rcases hev with ⟨e', he', hd'⟩ | ⟨ev', hst', _, hd'⟩
            · rcases List.mem_cons.mp he' with rfl | hrest
              · exact absurd hd' hed
              · exact ⟨e', hrest, hd'⟩
            · rw [List.cons.injEq, Prod.mk.injEq] at hst'
              obtain ⟨⟨_, hev'⟩, _⟩ := hst'
              rw [← hev'] at hd'
              exact absurd hd' hevd
          by_cases hts : ev.timestamp < e.timestamp
          · rw [if_pos hts]
            exact ih hprest [(p, e)] (Or.inr ⟨e, rfl, hesrc⟩) (Or.inl hevrest)
          · rw [if_neg hts]
            exact ih hprest [(p, ev)] (Or.inr ⟨ev, rfl, hevsrc⟩) (Or.inl hevrest)

/-- Claim C6: delete dominance in the debounce queue.  For any sequence
of `put` calls on a single source path within one window (starting from
an empty pending map) that includes at least one `deleted` event, the
flush delivers exactly one event for that path and its kind is `deleted`;
moreover, once the pending event for a path is `deleted`, any later `put`
on that path leaves the queue unchanged (so a repeated `deleted` is
idempotent and everything else is dropped until the flush). -/
theorem delete_dominance (p : String) (evs : List TrackerEvent)
    (hp : ∀ e ∈ evs, e.src_path = p)
    (hd : ∃ e ∈ evs, e.event_type = "deleted") :
    (((flush (evs.foldl put [])).filter (fun e => e.src_path == p)).length = 1
      ∧ ∀ e ∈ flush (evs.foldl put []), e.event_type = "deleted")
    ∧ ∀ (pending : List (String × TrackerEvent)) (e old : TrackerEvent),
        pendingLookup pending e.src_path = some old → old.event_type = "deleted" →
          put pending e = pending := by
  obtain ⟨ev, hfold, hsrc, hdel⟩ :=
    put_fold_deleted p evs hp [] (Or.inl rfl) (Or.inl hd)
  refine ⟨⟨?_, ?_⟩, ?_⟩
  · rw [hfold]
    simp [flush, hsrc]
  · rw [hfold]
    intro e he
    simp only [flush, List.map_cons, List.map_nil, List.mem_singleton] at he
    rw [he]
    exact hdel
  · intro pending e old hl hD
    simp only [put, hl, hD, if_true]

/-- Witness for `delete_dominance`: a created, deleted, modified burst on
one path. -/
theorem delete_dominance_witness :
    (((flush ([⟨"created", "/q/a.mp4", none, 1⟩, ⟨"deleted", "/q/a.mp4", none, 2⟩,
          ⟨"modified", "/q/a.mp4", none, 3⟩].foldl put [])).filter
        (fun e => e.src_path == "/q/a.mp4")).length = 1
      ∧ ∀ e ∈ flush ([⟨"created", "/q/a.mp4", none, 1⟩, ⟨"deleted", "/q/a.mp4", none, 2⟩,
          ⟨"modified", "/q/a.mp4", none, 3⟩].foldl put []), e.event_type = "deleted")
    ∧ ∀ (pending : List (String × TrackerEvent)) (e old : TrackerEvent),
        pendingLookup pending e.src_path = some old → old.event_type = "deleted" →
          put pending e = pending :=
  delete_dominance "/q/a.mp4"
    [⟨"created", "/q/a.mp4", none, 1⟩, ⟨"deleted", "/q/a.mp4", none, 2⟩,
      ⟨"modified", "/q/a.mp4", none, 3⟩]
    (by decide) ⟨⟨"deleted", "/q/a.mp4", none, 2⟩, by decide, rfl⟩

theorem create_insert_files (ctx : TrackerCtx) (db : DB) (path : String)
    (identity : FileIdentity)
    (hread : ctx.fs.compute path = some identity)
    (hnoactive : find_by_hash_and_size db.files identity.content_hash identity.size = none)
    (hguard : (db.files.any fun r =>
      r.id == generate_file_id ctx.md5hex path || r.nas_path == path) = false) :
    (handle_created ctx db path).files = db.files ++
      [⟨generate_file_id ctx.md5hex path, path, identity.filename, identity.size,
        identity.content_hash, "active", none, ctx.now, ctx.now, none, none⟩] := by
  simp only [handle_created, hread, hnoactive, create_file, hguard, Bool.false_eq_true,
    if_false, log_history_files]

theorem handle_created_ids (ctx : TrackerCtx) (db : DB) (path : String) :
    ∃ extra, (handle_created ctx db path).files.map (·.id)
      = db.files.map (·.id) ++ extra := by
  cases hc : ctx.fs.compute path with
  | none => exact ⟨[], by simp [handle_created, hc]⟩
  | some identity =>
    cases hf : find_by_hash_and_size db.files identity.content_hash identity.size with
    | some pr =>
      obtain ⟨fid, opath⟩ := pr
      cases hpr : update_path ctx db fid path with
      | none => exact ⟨[], by simp [handle_created, hc, hf, hpr]⟩
      | some db1 =>
        refine ⟨[], ?_⟩
        simp only [handle_created, hc, hf, hpr, log_history_files, List.append_nil]
        unfold update_path at hpr
        split at hpr
        · exact absurd hpr (by simp)
        · rw [Option.some.injEq] at hpr
          subst hpr
          simp only [List.map_map]
          apply List.map_congr_left
          intro r _
          by_cases hid : r.id = fid
          · simp [hid, rewritePath]
          · simp [hid, rewritePath]
    | none =>
      by_cases hguard : (db.files.any fun r =>
          r.id == generate_file_id ctx.md5hex path || r.nas_path == path) = true
      · exact ⟨[], by simp [handle_created, hc, hf, create_file, hguard]⟩
      · refine ⟨[generate_file_id ctx.md5hex path], ?_⟩
        rw [Bool.not_eq_true] at hguard
        simp [handle_created, hc, hf, create_file, hguard, log_history_files]

theorem handle_moved_ids (ctx : TrackerCtx) (db : DB) (src : String)
    (dst : Option String) :
    ∃ extra, (handle_moved ctx db src dst).files.map (·.id)
      = db.files.map (·.id) ++ extra := by
  cases dst with
  | none => exact ⟨[], by simp [handle_moved]⟩
  | some dst_path =>
    cases hf : db.files.find? (fun r => r.nas_path == src) with
    | none =>
      simp only [handle_moved, hf]
      exact handle_created_ids ctx db dst_path
    | some row =>
      simp only [handle_moved, hf]
      split
      · exact ⟨[], by simp⟩
      · refine ⟨[], ?_⟩
        simp only [log_history_files, List.append_nil, List.map_map]
        apply List.map_congr_left
        intro r _
        by_cases hid : r.id = row.id
        · simp [hid, rewritePath]
        · simp [hid, rewritePath]

/-- Claim C1: identity stability across moves.  A file first catalogued
at path `p1` with identity `(hsh, sz)` and later observed — by a `created`
event, the old path being gone or its delete having been lost — at a new
path `p2` with the same identity, ends up as exactly one catalog row:
the row list is the original ones plus a single row whose `id` is the one
assigned at first observation (derived from `p1`) and whose path is `p2`,
and exactly one active row carries that identity; moreover a `moved`
event never changes the id of any existing row (it can only append new
ids). -/
theorem identity_stability
    (ctx1 ctx2 : TrackerCtx) (db0 : DB) (p1 p2 fn1 fn2 hsh : String) (sz : Nat)
    (hobs1 : ctx1.fs.compute p1 = some ⟨sz, fn1, hsh⟩)
    (hnew : find_by_hash_and_size db0.files hsh sz = none)
    (hfresh : ∀ r ∈ db0.files, r.id ≠ generate_file_id ctx1.md5hex p1 ∧ r.nas_path ≠ p1)
    (hobs2 : ctx2.fs.compute p2 = some ⟨sz, fn2, hsh⟩)
    (hp2 : ∀ r ∈ db0.files, r.nas_path ≠ p2) :
    ((handle_created ctx2 (handle_created ctx1 db0 p1) p2).files
        = db0.files ++ [⟨generate_file_id ctx1.md5hex p1, p2, basename p2, sz, hsh,
            "active", none, ctx1.now, ctx2.now, none, none⟩]
      ∧ ((handle_created ctx2 (handle_created ctx1 db0 p1) p2).files.filter
          (fun r => r.content_hash == hsh && r.size_bytes == sz
            && r.status == "active")).length = 1)
    ∧ ∀ (ctx : TrackerCtx) (db : DB) (src : String) (dst : Option String),
        ∃ extra, (handle_moved ctx db src dst).files.map (·.id)
          = db.files.map (·.id) ++ extra := by
  have hguard1 : (db0.files.any fun r =>
      r.id == generate_file_id ctx1.md5hex p1 || r.nas_path == p1) = false := by
    rw [List.any_eq_false]
    intro r hr
    obtain ⟨h1, h2⟩ := hfresh r hr
    simp [h1, h2]
  have h1files : (handle_created ctx1 db0 p1).files = db0.files ++
      [⟨generate_file_id ctx1.md5hex p1, p1, fn1, sz, hsh, "active", none,
        ctx1.now, ctx1.now, none, none⟩] :=
    create_insert_files ctx1 db0 p1 ⟨sz, fn1, hsh⟩ hobs1 hnew hguard1
  have hnone0 : db0.files.find? (fun r =>
      r.content_hash == hsh && r.size_bytes == sz && r.status == "active") = none := by
    unfold find_by_hash_and_size at hnew
    rwa [Option.map_eq_none'] at hnew
  have hfind2 : find_by_hash_and_size (handle_created ctx1 db0 p1).files hsh sz
      = some (generate_file_id ctx1.md5hex p1, p1) := by
    rw [find_by_hash_and_size, h1files, List.find?_append, hnone0]
    simp [List.find?_cons]
  have hguard2 : ((handle_created ctx1 db0 p1).files.any
      fun r => r.nas_path == p2 && r.id != generate_file_id ctx1.md5hex p1) = false := by
    rw [h1files, List.any_eq_false]
    intro r hr
    rcases List.mem_append.mp hr with hr0 | hr1
    · simp [hp2 r hr0]
    · rw [List.mem_singleton] at hr1
      subst hr1
      simp
  have h2files : (handle_created ctx2 (handle_created ctx1 db0 p1) p2).files
      = db0.files ++ [⟨generate_file_id ctx1.md5hex p1, p2, basename p2, sz, hsh,
          "active", none, ctx1.now, ctx2.now, none, none⟩] := by
    generalize hdb1 : handle_created ctx1 db0 p1 = db1 at h1files hfind2 hguard2 ⊢
    simp only [handle_created, hobs2, hfind2, update_path, hguard2, Bool.false_eq_true,
      if_false, log_history_files]
    rw [h1files, List.map_append]
    congr 1
    · have hmapid : db0.files.map (fun r =>
          if (r.id == generate_file_id ctx1.md5hex p1) = true
          then rewritePath ctx2.now p2 r else r) = db0.files.map id := by
        apply List.map_congr_left
        intro r hr
        simp [(hfresh r hr).1]
      rw [hmapid, List.map_id]
    · simp [rewritePath]
  refine ⟨⟨h2files, ?_⟩, fun ctx db src dst => handle_moved_ids ctx db src dst⟩
  rw [h2files, List.filter_append]
  have hfilter0 : db0.files.filter (fun r =>
      r.content_hash == hsh && r.size_bytes == sz && r.status == "active") = [] := by
    rw [List.filter_eq_nil_iff]
    rw [List.find?_eq_none] at hnone0
    exact hnone0
  rw [hfilter0]
  simp

/-- Witness for `identity_stability`: an empty catalog, a file created at
one path and the same content observed later at another path. -/
theorem identity_stability_witness :
    ((handle_created
        ⟨fun s => s, ⟨fun p => if p = "/x/b.mp4" then some ⟨4, "b.mp4", "H"⟩ else none,
          fun _ => false⟩, "t2"⟩
        (handle_created
          ⟨fun s => s, ⟨fun p => if p = "/x/a.mp4" then some ⟨4, "a.mp4", "H"⟩ else none,
            fun _ => false⟩, "t1"⟩
          ⟨[], [], true⟩ "/x/a.mp4")
        "/x/b.mp4").files
        = [] ++ [⟨generate_file_id (fun s => s) "/x/a.mp4", "/x/b.mp4",
            basename "/x/b.mp4", 4, "H", "active", none, "t1", "t2", none, none⟩]
      ∧ ((handle_created
          ⟨fun s => s, ⟨fun p => if p = "/x/b.mp4" then some ⟨4, "b.mp4", "H"⟩ else none,
            fun _ => false⟩, "t2"⟩
          (handle_created
            ⟨fun s => s, ⟨fun p => if p = "/x/a.mp4" then some ⟨4, "a.mp4", "H"⟩ else none,
              fun _ => false⟩, "t1"⟩
            ⟨[], [], true⟩ "/x/a.mp4")
          "/x/b.mp4").files.filter
          (fun r => r.content_hash == "H" && r.size_bytes == 4
            && r.status == "active")).length = 1)
    ∧ ∀ (ctx : TrackerCtx) (db : DB) (src : String) (dst : Option String),
        ∃ extra, (handle_moved ctx db src dst).files.map (·.id)
          = db.files.map (·.id) ++ extra :=
  identity_stability
    ⟨fun s => s, ⟨fun p => if p = "/x/a.mp4" then some ⟨4, "a.mp4", "H"⟩ else none,
      fun _ => false⟩, "t1"⟩
    ⟨fun s => s, ⟨fun p => if p = "/x/b.mp4" then some ⟨4, "b.mp4", "H"⟩ else none,
      fun _ => false⟩, "t2"⟩
    ⟨[], [], true⟩ "/x/a.mp4" "/x/b.mp4" "a.mp4" "b.mp4" "H" 4
    (by decide) (by decide) (by decide) (by decide) (by decide)

end ArchiveAnalyzer
